import Mathlib

/-!
Shallow embedding of the Respondent-study monitoring pipeline
(`server/agent.ts`, `server/scraper.ts`, `server/email.ts`, the Discord
notifier, and the `DatabaseStorage` layer), together with proofs of the
behavioural properties claimed for it.

The database table `studies` is modelled as a `List Study`; the
db-generated uuid primary key is modelled as a `Nat` drawn from a
monotone counter, and the db-side `createdAt` timestamp default is not
modelled.  Asynchronous effects are modelled by explicit state passing;
exceptions are modelled with `Except`.
-/

namespace RespondentMonitor

/-- A stored study row (table `studies` in `shared/schema.ts`). -/
structure Study where
  id : Nat
  externalId : String
  title : String
  payout : Nat
  duration : String
  studyType : String
  studyFormat : Option String
  matchScore : Option Nat
  postedAt : Option String
  link : Option String
  description : Option String
  notified : Bool
  deriving DecidableEq

/-- A candidate produced by the scraper (`ScrapedStudy` in
`server/scraper.ts`): `externalId`, `title`, `payout`, `duration`,
`studyType` are always present, the remaining fields are optional. -/
structure Candidate where
  externalId : String
  title : String
  payout : Nat
  duration : String
  studyType : String
  matchScore : Option Nat
  postedAt : Option String
  link : Option String
  description : Option String
  deriving DecidableEq

/-- JavaScript `x || null` on an optional number: `0` is falsy, so a
present `0` collapses to `null` (`scraped.matchScore || null` in
`runCheck`). -/
def jsOrNullNat : Option Nat → Option Nat
  | some 0 => none
  | o => o

/-- JavaScript `x || null` on an optional string: the empty string is
falsy, so a present `""` collapses to `null`. -/
def jsOrNullStr : Option String → Option String
  | some "" => none
  | o => o

/-- The row built by `runCheck`'s call to `storage.createStudy`
(`server/agent.ts` lines 40-51): the scraped fields are copied,
`studyFormat` is not passed (so it stays null), the optional fields go
through `|| null`, and `notified` is `false`. -/
def toStudy (c : Candidate) (freshId : Nat) : Study :=
  { id := freshId
    externalId := c.externalId
    title := c.title
    payout := c.payout
    duration := c.duration
    studyType := c.studyType
    studyFormat := none
    matchScore := jsOrNullNat c.matchScore
    postedAt := jsOrNullStr c.postedAt
    link := jsOrNullStr c.link
    description := jsOrNullStr c.description
    notified := false }

/-- `DatabaseStorage.getStudyByExternalId`: select the first row whose
`externalId` matches. -/
def getStudyByExternalId (store : List Study) (eid : String) : Option Study :=
  store.find? (fun s => s.externalId == eid)

/-- `DatabaseStorage.createStudy`: insert a row (appended at the end of
the table model). -/
def createStudy (store : List Study) (s : Study) : List Study :=
  store ++ [s]

/-- Result of the per-candidate lookup-then-insert loop of `runCheck`. -/
structure ReconcileResult where
  store : List Study
  nextId : Nat
  created : List Study
  deriving DecidableEq

/-- The reconcile step of `runCheck` (`server/agent.ts` lines 34-55):
for each scraped candidate, look it up by `externalId`; if absent,
create the study with `notified := false` and collect it in
`newStudies`; if present, do nothing. -/
def reconcile (store : List Study) (nextId : Nat) :
    List Candidate → ReconcileResult
  | [] => ⟨store, nextId, []⟩
  | c :: cs =>
    match getStudyByExternalId store c.externalId with
    | some _ => reconcile store nextId cs
    | none =>
      let s := toStudy c nextId
      let r := reconcile (createStudy store s) (nextId + 1) cs
      ⟨r.store, r.nextId, s :: r.created⟩

/-- Number of rows of the store carrying a given `externalId`. -/
def countExt (store : List Study) (eid : String) : Nat :=
  store.countP (fun s => s.externalId == eid)

theorem getStudyByExternalId_append (store : List Study) (s : Study) (eid : String) :
    getStudyByExternalId (store ++ [s]) eid =
      match getStudyByExternalId store eid with
      | some r => some r
      | none => if s.externalId == eid then some s else none := by
  induction store with
  | nil =>
    simp only [getStudyByExternalId, List.nil_append, List.find?]
    cases h : (s.externalId == eid) <;> simp [List.find?, h]
  | cons a l ih =>
    simp only [getStudyByExternalId, List.cons_append, List.find?] at *
    cases h : (a.externalId == eid) <;> simp [h, ih]

theorem getStudyByExternalId_none_iff (store : List Study) (eid : String) :
    getStudyByExternalId store eid = none ↔
      ∀ s ∈ store, ¬ s.externalId = eid := by
  simp [getStudyByExternalId, List.find?_eq_none]

/-- An existing row is still found, unchanged, after any sequence of
inserts performed by `reconcile`. -/
theorem reconcile_preserves_lookup (cs : List Candidate) :
    ∀ (store : List Study) (nextId : Nat) (eid : String) (s : Study),
      getStudyByExternalId store eid = some s →
      getStudyByExternalId (reconcile store nextId cs).store eid = some s := by
  induction cs with
  | nil => intro store nextId eid s h; simpa [reconcile] using h
  | cons c cs ih =>
    intro store nextId eid s h
    simp only [reconcile]
    cases hl : getStudyByExternalId store c.externalId with
    | some r => exact ih store nextId eid s h
    | none =>
      simp only []
      have h' : getStudyByExternalId (createStudy store (toStudy c nextId)) eid = some s := by
        rw [createStudy, getStudyByExternalId_append, h]
      exact ih _ _ eid s h'

/-- After `reconcile` has processed a candidate, that candidate's
`externalId` is present in the store. -/
theorem reconcile_mem_isSome (cs : List Candidate) :
    ∀ (store : List Study) (nextId : Nat) (c : Candidate), c ∈ cs →
      (getStudyByExternalId (reconcile store nextId cs).store c.externalId).isSome := by
  induction cs with
  | nil => intro _ _ _ h; cases h
  | cons c cs ih =>
    intro store nextId d hd
    rcases List.mem_cons.mp hd with h | h
    · subst h
      simp only [reconcile]
      cases hl : getStudyByExternalId store d.externalId with
      | some r =>
        have := reconcile_preserves_lookup cs store nextId d.externalId r hl
        simp [this]
      | none =>
        simp only []
        have hins : getStudyByExternalId (createStudy store (toStudy d nextId)) d.externalId
            = some (toStudy d nextId) := by
          rw [createStudy, getStudyByExternalId_append, hl]
          simp [toStudy]
        have := reconcile_preserves_lookup cs _ (nextId + 1) d.externalId _ hins
        simp [this]
    · simp only [reconcile]
      cases hl : getStudyByExternalId store c.externalId with
      | some r => exact ih store nextId d h
      | none => exact ih _ _ d h

/-- If every candidate is already present, `reconcile` is the identity:
it inserts nothing and creates nothing. -/
theorem reconcile_all_present (cs : List Candidate) :
    ∀ (store : List Study) (nextId : Nat),
      (∀ c ∈ cs, (getStudyByExternalId store c.externalId).isSome) →
      reconcile store nextId cs = ⟨store, nextId, []⟩ := by
  induction cs with
  | nil => intro store nextId _; rfl
  | cons c cs ih =>
    intro store nextId h
    have hc := h c (List.mem_cons_self c cs)
    simp only [reconcile]
    cases hl : getStudyByExternalId store c.externalId with
    | some r => exact ih store nextId (fun d hd => h d (List.mem_cons_of_mem c hd))
    | none => rw [hl] at hc; simp at hc

theorem countExt_append (store : List Study) (s : Study) (eid : String) :
    countExt (store ++ [s]) eid =
      countExt store eid + (if s.externalId == eid then 1 else 0) := by
  simp only [countExt, List.countP_append, List.countP_cons, List.countP_nil]
  cases h : (s.externalId == eid) <;> simp [h]

theorem countExt_eq_zero_of_none {store : List Study} {eid : String}
    (h : getStudyByExternalId store eid = none) : countExt store eid = 0 := by
  rw [getStudyByExternalId_none_iff] at h
  simp only [countExt, List.countP_eq_zero]
  intro s hs
  simpa using h s hs

theorem lookup_isSome_countExt_pos {store : List Study} {eid : String}
    (h : (getStudyByExternalId store eid).isSome) : countExt store eid ≠ 0 := by
  cases hl : getStudyByExternalId store eid with
  | none => rw [hl] at h; simp at h
  | some r =>
    simp only [getStudyByExternalId] at hl
    have hmem1 : r ∈ store := List.mem_of_find?_eq_some hl
    have hmem2 := List.find?_some hl
    have hmem : r ∈ store ∧ (r.externalId == eid) = true := ⟨hmem1, hmem2⟩
    simp only [countExt, ne_eq, List.countP_eq_zero]
    intro hall
    exact absurd hmem.2 (by simpa using hall r hmem.1)

/-- Exact count bookkeeping for one `reconcile` pass: an `externalId`
already present keeps its exact multiplicity; an absent one is inserted
exactly once when some candidate carries it, and never otherwise. -/
theorem reconcile_countExt (cs : List Candidate) :
    ∀ (store : List Study) (nextId : Nat) (eid : String),
      countExt (reconcile store nextId cs).store eid =
        countExt store eid +
          (if countExt store eid = 0 ∧ cs.any (fun c => c.externalId == eid) then 1 else 0) := by
  induction cs with
  | nil => intro store nextId eid; simp [reconcile]
  | cons c cs ih =>
    intro store nextId eid
    simp only [reconcile]
    cases hl : getStudyByExternalId store c.externalId with
    | some r =>
      simp only []
      rw [ih store nextId eid]
      have hpos : countExt store c.externalId ≠ 0 :=
        lookup_isSome_countExt_pos (by simp [hl])
      by_cases he : c.externalId = eid
      · subst he
        simp [hpos, List.any_cons]
      · have : (c.externalId == eid) = false := by simp [he]
        simp [List.any_cons, this]
    | none =>
      simp only []
      rw [ih _ (nextId + 1) eid]
      have hz : countExt store c.externalId = 0 := countExt_eq_zero_of_none hl
      by_cases he : c.externalId = eid
      · subst he
        rw [createStudy, countExt_append]
        simp [toStudy, hz, List.any_cons]
      · have hb : (c.externalId == eid) = false := by simp [he]
        have hbt : ((toStudy c nextId).externalId == eid) = false := by simp [toStudy, he]
        rw [createStudy, countExt_append, hbt]
        simp [List.any_cons, hb]

/-- C1.  The reconcile step of `runCheck` is idempotent and never
silently overwrites: (a) a second pass over the same candidate list
changes nothing and creates nothing; (b) a row already stored under an
`externalId` is still found completely unchanged (its `notified` flag
included) after the pass; (c) each `externalId` is inserted at most
once: a present id keeps its exact multiplicity, an absent one gains a
single row exactly when some candidate carries it. -/
theorem reconcile_idempotent_no_overwrite_C1
    (store : List Study) (nextId : Nat) (cs : List Candidate) :
    reconcile (reconcile store nextId cs).store (reconcile store nextId cs).nextId cs =
      ⟨(reconcile store nextId cs).store, (reconcile store nextId cs).nextId, []⟩ ∧
    (∀ eid s, getStudyByExternalId store eid = some s →
      getStudyByExternalId (reconcile store nextId cs).store eid = some s) ∧
    (∀ eid, countExt (reconcile store nextId cs).store eid =
      countExt store eid +
        (if countExt store eid = 0 ∧ cs.any (fun c => c.externalId == eid) then 1 else 0)) := by
  refine ⟨?_, ?_, ?_⟩
  · exact reconcile_all_present cs _ _
      (fun c hc => reconcile_mem_isSome cs store nextId c hc)
  · intro eid s h
    exact reconcile_preserves_lookup cs store nextId eid s h
  · intro eid
    exact reconcile_countExt cs store nextId eid

/-- `DatabaseStorage.markStudyNotified`: `update studies set notified =
true where id = id` — only the matching row's `notified` column is
touched. -/
def markStudyNotified (store : List Study) (id : Nat) : List Study :=
  store.map (fun s => if s.id == id then { s with notified := true } else s)

/-- The `for` loop of `runCheck` that marks every newly created study as
notified after a successful send (`server/agent.ts` lines 72-74). -/
def markAllNotified : List Study → List Nat → List Study
  | store, [] => store
  | store, i :: is => markAllNotified (markStudyNotified store i) is

/-- `DatabaseStorage.syncStudies`: with an empty id list return 0 and
delete nothing; otherwise delete every row whose `externalId` is not in
the list and return how many rows were deleted. -/
def syncStudies (store : List Study) (currentExternalIds : List String) :
    List Study × Nat :=
  if currentExternalIds.isEmpty then (store, 0)
  else
    ((store.filter (fun s => currentExternalIds.contains s.externalId)),
     (store.filter (fun s => !(currentExternalIds.contains s.externalId))).length)

/-- The per-recipient send loop of `sendStudyNotification`
(`server/email.ts` lines 123-136): each address is attempted exactly
once, in order; a failing send is caught and recorded, and the loop
continues.  Returns (attempted recipients, failed recipients). -/
def fanout (sendOk : String → Bool) : List String → List String × List String
  | [] => ([], [])
  | e :: rest =>
    let r := fanout sendOk rest
    (e :: r.1, if sendOk e then r.2 else e :: r.2)

/-- `sendStudyNotification` (`server/email.ts`): if obtaining the Gmail
client (the transport layer) fails, the outer catch returns `false`;
otherwise the loop runs over all recipients and the function returns
`true` regardless of per-recipient failures.  Returns (result,
recipients actually attempted). -/
def sendStudyNotificationRun (transportOk : Bool) (sendOk : String → Bool)
    (emails : List String) : Bool × List String :=
  if transportOk then (true, (fanout sendOk emails).1)
  else (false, [])

/-- The notification phase of `runCheck` (`server/agent.ts` lines
62-80): with no active recipients nothing is sent and nothing is
marked; otherwise the studies are marked notified exactly when
`sendStudyNotification` returned `true`. -/
def notifyAndMark (transportOk : Bool) (sendOk : String → Bool)
    (recips : List String) (created : List Study) (store : List Study) :
    List Study :=
  if recips.isEmpty then store
  else if (sendStudyNotificationRun transportOk sendOk recips).1 then
    markAllNotified store (created.map (fun s => s.id))
  else store

theorem fanout_attempts_all (sendOk : String → Bool) (emails : List String) :
    (fanout sendOk emails).1 = emails := by
  induction emails with
  | nil => rfl
  | cons e rest ih => simp [fanout, ih]

theorem fanout_failures (sendOk : String → Bool) (emails : List String) :
    (fanout sendOk emails).2 = emails.filter (fun e => !(sendOk e)) := by
  induction emails with
  | nil => rfl
  | cons e rest ih =>
    simp only [fanout, List.filter_cons]
    cases h : sendOk e <;> simp [h, ih]

/-- C7.  Notification fan-out is best-effort and isolated:
`sendStudyNotification` returns exactly the transport-layer outcome (a
per-recipient failure never flips it to `false`); when the transport is
up, every recipient in the list is attempted exactly once, in order,
regardless of earlier failures (no recipient is skipped and none is
retried); and the recipients recorded as failed are exactly those whose
individual send failed. -/
theorem notification_fanout_best_effort_C7 (transportOk : Bool)
    (sendOk : String → Bool) (emails : List String) :
    (sendStudyNotificationRun transportOk sendOk emails).1 = transportOk ∧
    (sendStudyNotificationRun true sendOk emails).2 = emails ∧
    (fanout sendOk emails).2 = emails.filter (fun e => !(sendOk e)) := by
  refine ⟨?_, ?_, fanout_failures sendOk emails⟩
  · cases transportOk <;> simp [sendStudyNotificationRun]
  · simp [sendStudyNotificationRun, fanout_attempts_all]

/-- C3.  `syncStudies` with an empty id list is a no-op on every store
and reports 0 removed; with a non-empty list the kept rows are exactly
the stored rows whose `externalId` occurs in the list (no other row is
deleted, none is added), and the removed count is exactly the number of
rows deleted. -/
theorem prune_empty_noop_C3 (store : List Study) (ids : List String) :
    syncStudies store [] = (store, 0) ∧
    (ids ≠ [] →
      (∀ s, s ∈ (syncStudies store ids).1 ↔ s ∈ store ∧ ids.contains s.externalId) ∧
      (syncStudies store ids).1.length + (syncStudies store ids).2 = store.length) := by
  constructor
  · simp [syncStudies]
  · intro hne
    have hid : ids.isEmpty = false := by
      cases ids with
      | nil => exact absurd rfl hne
      | cons a l => rfl
    constructor
    · intro s
      simp [syncStudies, hid, List.mem_filter]
    · simp only [syncStudies, hid, Bool.false_eq_true, if_false]
      simpa using
        (List.length_eq_length_filter_add
          (l := store) (fun s => ids.contains s.externalId)).symm

/-- A tiny concrete two-row store used to instantiate theorems with
hypotheses on concrete inputs. -/
def demoStore : List Study :=
  [toStudy ⟨"a", "t", 5, "5 min", "Remote", none, none, none, none⟩ 0,
   toStudy ⟨"b", "u", 7, "5 min", "Remote", none, none, none, none⟩ 1]

theorem prune_empty_noop_C3_witness :
    (∀ s, s ∈ (syncStudies demoStore ["a"]).1 ↔
        s ∈ demoStore ∧ (["a"] : List String).contains s.externalId) ∧
    (syncStudies demoStore ["a"]).1.length + (syncStudies demoStore ["a"]).2
      = demoStore.length :=
  (prune_empty_noop_C3 demoStore ["a"]).2 (by decide)

theorem reconcile_created_notified_false (cs : List Candidate) :
    ∀ (store : List Study) (nextId : Nat) (s : Study),
      s ∈ (reconcile store nextId cs).created → s.notified = false := by
  induction cs with
  | nil => intro store nextId s h; simp [reconcile] at h
  | cons c cs ih =>
    intro store nextId s h
    simp only [reconcile] at h
    cases hl : getStudyByExternalId store c.externalId with
    | some r => rw [hl] at h; exact ih store nextId s h
    | none =>
      rw [hl] at h
      simp only [List.mem_cons] at h
      rcases h with h | h
      · subst h; rfl
      · exact ih _ _ s h

theorem markStudyNotified_idem (store : List Study) (id : Nat) :
    markStudyNotified (markStudyNotified store id) id = markStudyNotified store id := by
  simp only [markStudyNotified, List.map_map]
  apply List.map_congr_left
  intro s _
  by_cases h : s.id = id <;> simp [Function.comp, h]

theorem markStudyNotified_noop_of_true (store : List Study) (id : Nat)
    (h : ∀ s ∈ store, s.id = id → s.notified = true) :
    markStudyNotified store id = store := by
  simp only [markStudyNotified]
  conv_rhs => rw [← List.map_id store]
  apply List.map_congr_left
  intro s hs
  by_cases hid : s.id = id
  · have := h s hs hid
    cases s
    simp_all
  · simp [hid]

theorem markStudyNotified_sets (store : List Study) (i : Nat) :
    ∀ r ∈ markStudyNotified store i, r.id = i → r.notified = true := by
  intro r hr hri
  simp only [markStudyNotified, List.mem_map] at hr
  obtain ⟨s, _, hfs⟩ := hr
  by_cases h : s.id = i
  · rw [← hfs]; simp [h]
  · rw [← hfs] at hri
    simp [h] at hri

theorem markStudyNotified_keeps (store : List Study) (i tid : Nat)
    (h : ∀ r ∈ store, r.id = tid → r.notified = true) :
    ∀ r ∈ markStudyNotified store i, r.id = tid → r.notified = true := by
  intro r hr hrt
  simp only [markStudyNotified, List.mem_map] at hr
  obtain ⟨s, hs, hfs⟩ := hr
  by_cases hid : s.id = i
  · rw [← hfs]; simp [hid]
  · have hb : (s.id == i) = false := by simp [hid]
    rw [← hfs] at hrt ⊢
    simp only [hb, Bool.false_eq_true, if_false] at hrt ⊢
    exact h s hs hrt

theorem markAllNotified_keeps (ids : List Nat) :
    ∀ (store : List Study) (tid : Nat),
      (∀ r ∈ store, r.id = tid → r.notified = true) →
      ∀ r ∈ markAllNotified store ids, r.id = tid → r.notified = true := by
  induction ids with
  | nil => intro store tid h r hr; exact h r hr
  | cons i is ih =>
    intro store tid h r hr
    exact ih (markStudyNotified store i) tid
      (markStudyNotified_keeps store i tid h) r hr

theorem markAllNotified_sets (ids : List Nat) :
    ∀ (store : List Study) (tid : Nat), tid ∈ ids →
      ∀ r ∈ markAllNotified store ids, r.id = tid → r.notified = true := by
  induction ids with
  | nil => intro _ _ h; cases h
  | cons i is ih =>
    intro store tid htid r hr
    rcases List.mem_cons.mp htid with h | h
    · subst h
      exact markAllNotified_keeps is (markStudyNotified store tid) tid
        (markStudyNotified_sets store tid) r hr
    · exact ih (markStudyNotified store i) tid h r hr

/-- C2.  The `notified` flag lifecycle of `runCheck`: every record the
reconcile step creates carries `notified = false`; the marking loop is
reached only behind a successful `sendStudyNotification` — with no
active recipients, or when the send returned `false`, the store (all
flags included) is left completely unchanged; when the send returned
`true` every record of the notified batch has its flag set; and
`markStudyNotified` is idempotent — marking an id whose row is already
`notified = true` changes nothing and raises no error. -/
theorem notified_lifecycle_C2 (store : List Study) (nextId : Nat)
    (cs : List Candidate) (f : String → Bool) (recips : List String)
    (created store₀ : List Study) (i : Nat) :
    (∀ s ∈ (reconcile store nextId cs).created, s.notified = false) ∧
    notifyAndMark true f [] created store₀ = store₀ ∧
    notifyAndMark false f recips created store₀ = store₀ ∧
    markStudyNotified (markStudyNotified store₀ i) i = markStudyNotified store₀ i ∧
    ((∀ s ∈ store₀, s.id = i → s.notified = true) →
      markStudyNotified store₀ i = store₀) ∧
    (recips ≠ [] → ∀ s ∈ created,
      ∀ r ∈ notifyAndMark true f recips created store₀,
        r.id = s.id → r.notified = true) := by
  refine ⟨?_, ?_, ?_, markStudyNotified_idem store₀ i,
    markStudyNotified_noop_of_true store₀ i, ?_⟩
  · intro s hs; exact reconcile_created_notified_false cs store nextId s hs
  · simp [notifyAndMark]
  · cases recips with
    | nil => simp [notifyAndMark]
    | cons a l => simp [notifyAndMark, sendStudyNotificationRun]
  · intro hne s hs r hr hid
    have hempty : recips.isEmpty = false := by
      cases recips with
      | nil => exact absurd rfl hne
      | cons a l => rfl
    simp only [notifyAndMark, hempty, Bool.false_eq_true, if_false,
      sendStudyNotificationRun, if_true] at hr
    exact markAllNotified_sets (created.map (fun s => s.id)) store₀ s.id
      (List.mem_map_of_mem (fun s => s.id) hs) r hr hid

/-- Two candidates, the first sharing its `externalId` with a row of
`demoStore`, the second genuinely new. -/
def demoCands : List Candidate :=
  [⟨"a", "t", 5, "5 min", "Remote", none, none, none, none⟩,
   ⟨"c", "v", 9, "5 min", "Remote", none, none, none, none⟩]

theorem reconcile_idempotent_no_overwrite_C1_witness :
    getStudyByExternalId (reconcile demoStore 2 demoCands).store "a" =
      some (toStudy ⟨"a", "t", 5, "5 min", "Remote", none, none, none, none⟩ 0) := by
  have h := reconcile_idempotent_no_overwrite_C1 demoStore 2 demoCands
  exact h.2.1 "a" _ (by decide)

/-- `demoStore` with both rows marked notified. -/
def demoMarked : List Study := markAllNotified demoStore [0, 1]

theorem notified_lifecycle_C2_witness :
    markStudyNotified demoMarked 0 = demoMarked ∧
    (toStudy ⟨"a", "t", 5, "5 min", "Remote", none, none, none, none⟩ 0).notified
      = false := by
  have h := notified_lifecycle_C2 [] 0
    [⟨"a", "t", 5, "5 min", "Remote", none, none, none, none⟩]
    (fun _ => true) ["r"] demoStore demoMarked 0
  refine ⟨h.2.2.2.2.1 (by decide), ?_⟩
  exact h.1 _ (by decide)

/-- Longest leading run of ASCII digits of a character list, with the
remainder (the greedy \d+ of the payout regex). -/
def takeDigits : List Char → List Char × List Char
  | [] => ([], [])
  | c :: cs =>
    if c.isDigit then
      let r := takeDigits cs
      (c :: r.1, r.2)
    else ([], c :: cs)

/-- Numeric value of a digit run. -/
def digitsToNat (ds : List Char) : Nat :=
  ds.foldl (fun acc c => 10 * acc + (c.toNat - 48)) 0

/-- One attempt of the payout regex /\$(\d+(?:\.\d\x7b2\x7d)?)/ at the
current position: a dollar sign, at least one digit (greedy), then
optionally a dot followed by two digits.  Returns the integer part and
the two-digit fractional part in hundredths. -/
def matchPayoutAt : List Char → Option (Nat × Nat)
  | '$' :: rest =>
    let r := takeDigits rest
    if r.1.isEmpty then none
    else
      match r.2 with
      | '.' :: d1 :: d2 :: _ =>
        if d1.isDigit && d2.isDigit then
          some (digitsToNat r.1, 10 * (d1.toNat - 48) + (d2.toNat - 48))
        else some (digitsToNat r.1, 0)
      | _ => some (digitsToNat r.1, 0)
  | _ => none

/-- Left-to-right scan for the first position where the payout regex
matches (JavaScript String.match returns the first match only). -/
def findPayout : List Char → Option (Nat × Nat)
  | [] => none
  | c :: cs =>
    match matchPayoutAt (c :: cs) with
    | some r => some r
    | none => findPayout cs

/-- Math.round of the matched value (half rounds up); no match gives
the default payout 0 (`server/scraper.ts` lines 92-94, part_001 lines
125-127). -/
def extractPayout (s : String) : Nat :=
  match findPayout s.data with
  | none => 0
  | some (intPart, hundredths) => if hundredths ≥ 50 then intPart + 1 else intPart

/-- Is `pat` a prefix of `hay`? -/
def beginsWith : List Char → List Char → Bool
  | _, [] => true
  | [], _ :: _ => false
  | a :: as, b :: bs => a == b && beginsWith as bs

/-- JavaScript String.includes: does `pat` occur contiguously anywhere
in `hay`? -/
def containsSeg : List Char → List Char → Bool
  | [], pat => pat.isEmpty
  | h :: t, pat => beginsWith (h :: t) pat || containsSeg t pat

/-- String-level wrapper of `containsSeg`. -/
def strIncludes (hay pat : String) : Bool :=
  containsSeg hay.data pat.data

/-- The study-format chain of the extractor (part_001 lines 152-169),
applied to the concatenation of the normalized card text and the meta
tokens: a fixed priority order with first match winning and the empty
string when nothing matches. -/
def studyFormatOf (allText : String) : String :=
  if strIncludes allText "one-on-one" || strIncludes allText "1-on-1"
      || strIncludes allText "1:1" then "One-on-One"
  else if strIncludes allText "unmoderated" then "Unmoderated"
  else if strIncludes allText "moderated" && !(strIncludes allText "unmoderated") then
    "Moderated"
  else if strIncludes allText "focus group" then "Focus Group"
  else if strIncludes allText "survey" && !(strIncludes allText "video survey") then
    "Survey"
  else if strIncludes allText "interview" then "Interview"
  else if strIncludes allText "diary" || strIncludes allText "journal" then
    "Diary Study"
  else if strIncludes allText "usability" || strIncludes allText "ux test" then
    "Usability Test"
  else ""

/-- C4 counterexample.  The payout regex of both scraper versions
returns the first currency match, not the maximum: on the card text
"$50 to $200" the extracted amount is 50, not the 200 the claim
states. -/
theorem payout_not_max_C4_counterexample :
    extractPayout "$50 to $200" = 50 ∧ extractPayout "$50 to $200" ≠ 200 := by
  constructor <;> decide

/-- C4 (amended).  Amount extraction takes the first currency-pattern
match and rounds it to the nearest integer: "$50 to $200" gives 50 (the
first match, not the maximum), "$120.00" gives 120, "$99.50" rounds up
to 100, and text with no currency token gives the default 0. -/
theorem payout_first_match_C4 :
    extractPayout "$50 to $200" = 50 ∧
    extractPayout "$120.00" = 120 ∧
    extractPayout "$99.50" = 100 ∧
    extractPayout "Remote - 30 min - no compensation listed" = 0 := by
  refine ⟨by decide, by decide, by decide, by decide⟩

/-- C5.  Format-tag priority: for any combined card text that contains
none of the one-on-one variants ("one-on-one", "1-on-1", "1:1") but
contains "unmoderated" (and hence also its substring "moderated"), the
extracted format tag is "Unmoderated" — the unmoderated check precedes
the moderated one; and a text matching none of the patterns gets the
empty tag. -/
theorem format_priority_unmoderated_C5 (t : String)
    (h1 : strIncludes t "one-on-one" = false)
    (h2 : strIncludes t "1-on-1" = false)
    (h3 : strIncludes t "1:1" = false)
    (h4 : strIncludes t "unmoderated" = true)
    (h5 : strIncludes t "moderated" = true) :
    studyFormatOf t = "Unmoderated" ∧ studyFormatOf "" = "" := by
  constructor
  · simp [studyFormatOf, h1, h2, h3, h4, h5]
  · decide

theorem format_priority_unmoderated_C5_witness :
    studyFormatOf "remote - unmoderated - 30 min" = "Unmoderated" ∧
    studyFormatOf "" = "" :=
  format_priority_unmoderated_C5 "remote - unmoderated - 30 min"
    (by decide) (by decide) (by decide) (by decide) (by decide)

/-- One digest row of the notification email (`server/email.ts` lines
69-83), with the JavaScript-truthiness guards on the optional fields
(`0` and `""` behave like absent). -/
def emailStudyRow (s : Study) : String :=
  "<tr><td><h3>" ++ s.title ++ "</h3><p>Payout: $" ++ toString s.payout ++
    " | Duration: " ++ s.duration ++ " | Type: " ++ s.studyType ++
    (match s.matchScore with
      | some m => if m = 0 then "" else " | Match: " ++ toString m ++ "%"
      | none => "") ++
    "</p>" ++
    (match s.postedAt with
      | some p => if p = "" then "" else "<p>Posted: " ++ p ++ "</p>"
      | none => "") ++
    (match s.link with
      | some l => if l = "" then "" else "<p><a href=" ++ l ++ ">View Study</a></p>"
      | none => "") ++
    "</td></tr>"

/-- The email digest body: `studies.map(...)` — one row per given
study, with no cap on the number of rows. -/
def emailDigestRows (studies : List Study) : List String :=
  studies.map emailStudyRow

/-- The count line of the email body: "We found N new studies matching
your profile" with N the full batch size. -/
def emailHeader (studies : List Study) : String :=
  "We found " ++ toString studies.length ++ " new " ++
    (if studies.length = 1 then "study" else "studies") ++
    " matching your profile:"

/-- One digest line of the Discord embed (part_002 lines 12-15). -/
def discordStudyLine (s : Study) : String :=
  "**" ++ s.title ++ "**" ++ " Payout: $" ++ toString s.payout ++
    " | Duration: " ++ s.duration ++ " | Type: " ++ s.studyType

/-- The Discord digest: `studies.slice(0, 10).map(...)` — at most the
first 10 studies are rendered. -/
def discordDigestLines (studies : List Study) : List String :=
  (studies.take 10).map discordStudyLine

/-- The Discord embed title (part_002 line 18): the full batch size,
not the capped digest size. -/
def discordTitle (studies : List Study) : String :=
  toString studies.length ++ " New " ++
    (if studies.length = 1 then "Study" else "Studies") ++ " Found!"

theorem beginsWith_append (p y : List Char) : beginsWith (p ++ y) p = true := by
  induction p with
  | nil => cases y <;> rfl
  | cons a as ih => simp [beginsWith, ih]

theorem containsSeg_of_beginsWith (l pat : List Char)
    (h : beginsWith l pat = true) : containsSeg l pat = true := by
  cases l with
  | nil =>
    cases pat with
    | nil => rfl
    | cons b bs => simp [beginsWith] at h
  | cons a as => simp [containsSeg, h]

theorem containsSeg_append_left (h t pat : List Char)
    (hc : containsSeg t pat = true) : containsSeg (h ++ t) pat = true := by
  induction h with
  | nil => simpa using hc
  | cons a as ih => simp [containsSeg, ih]

theorem strIncludes_append_middle (a n b : String) :
    strIncludes (a ++ (n ++ b)) n = true := by
  simp only [strIncludes, String.data_append]
  exact containsSeg_append_left a.data (n.data ++ b.data) n.data
    (containsSeg_of_beginsWith _ _ (beginsWith_append n.data b.data))

/-- Eleven pairwise distinct studies, enough to overflow a 10-record
cap. -/
def mkDemoStudy (n : Nat) : Study :=
  toStudy ⟨toString n, "Study " ++ toString n, n, "30 min", "Remote",
    none, none, none, none⟩ n

def elevenStudies : List Study := (List.range 11).map mkDemoStudy

/-- C6 counterexample.  The email path — the one message sent to each
recipient by `runCheck` — does not cap its digest: for a batch of 11
new records, the email digest contains 11 rows, not at most 10. -/
theorem email_digest_uncapped_C6_counterexample :
    (emailDigestRows elevenStudies).length = 11 ∧
    ¬ ((emailDigestRows elevenStudies).length ≤ 10) := by
  constructor <;> decide

/-- C6 (amended).  Only the Discord notification caps its digest at 10
records while its header still reports the true batch size; the email
message sent to each recipient renders one digest row for every record
of the batch with no cap, and its header also reports the true
count. -/
theorem notification_digest_C6 (studies : List Study) :
    (discordDigestLines studies).length ≤ 10 ∧
    strIncludes (discordTitle studies) (toString studies.length) = true ∧
    (emailDigestRows studies).length = studies.length ∧
    strIncludes (emailHeader studies) (toString studies.length) = true := by
  refine ⟨?_, ?_, ?_, ?_⟩
  · simp only [discordDigestLines, List.length_map, List.length_take]
    exact min_le_left 10 studies.length
  · have h := strIncludes_append_middle "" (toString studies.length)
      (" New " ++ (if studies.length = 1 then "Study" else "Studies") ++ " Found!")
    simp only [discordTitle]
    simpa [String.append_assoc] using h
  · simp [emailDigestRows]
  · have h := strIncludes_append_middle "We found " (toString studies.length)
      (" new " ++ (if studies.length = 1 then "study" else "studies") ++
        " matching your profile:")
    simp only [emailHeader]
    simpa [String.append_assoc] using h

/-- The agent-settings singleton (`agent_settings` table) as read by the
scheduler. -/
structure SettingsRec where
  checkIntervalMinutes : Nat
  isActive : Bool
  deriving DecidableEq

/-- The module-level scheduler state of `server/agent.ts`: the
`isRunning` flag and the `setInterval` handle, which carries the period
(in ms) fixed when the timer was created. -/
structure SchedulerState where
  running : Bool
  timerPeriodMs : Option Nat
  deriving DecidableEq

/-- `startAgent` (`server/agent.ts` lines 90-127): bail out when
already running or when the settings read at start time are disabled;
otherwise create the timer with period `(checkIntervalMinutes || 10) *
60 * 1000` computed from the settings read at start time.  (The initial
`runCheck` and the `lastCheckAt` update are modelled by `runCheck`.) -/
def startAgent (cur : SettingsRec) (st : SchedulerState) : SchedulerState :=
  if st.running then st
  else if !cur.isActive then st
  else
    { running := true
      timerPeriodMs :=
        some ((if cur.checkIntervalMinutes = 0 then 10
               else cur.checkIntervalMinutes) * 60 * 1000) }

/-- `stopAgent`: clear the timer and the running flag. -/
def stopAgent (_st : SchedulerState) : SchedulerState :=
  { running := false, timerPeriodMs := none }

/-- One firing of the `setInterval` callback (`server/agent.ts` lines
114-124): re-read the current settings; if they are disabled, stop and
skip the check; otherwise run the check.  The Boolean reports whether
`runCheck` was executed; the timer period itself is not touched. -/
def timerTick (cur : SettingsRec) (st : SchedulerState) : SchedulerState × Bool :=
  if !cur.isActive then (stopAgent st, false) else (st, true)

/-- C9 counterexample.  The timer period is the interval cached when
`startAgent` created the timer, not the currently configured value: an
agent started under interval 10 whose settings are then changed to 5
(with no restart — e.g. a PATCH carrying both `isActive: true` and a
new interval takes the `startAgent` branch, which returns early on an
already-running agent) still fires with the 10-minute period. -/
theorem interval_cached_C9_counterexample :
    (startAgent ⟨10, true⟩ ⟨false, none⟩).timerPeriodMs = some 600000 ∧
    (timerTick ⟨5, true⟩ (startAgent ⟨10, true⟩ ⟨false, none⟩)).2 = true ∧
    (timerTick ⟨5, true⟩ (startAgent ⟨10, true⟩ ⟨false, none⟩)).1.timerPeriodMs ≠
      some (5 * 60 * 1000) := by
  refine ⟨by decide, by decide, by decide⟩

/-- C9 (amended).  The enabled flag is genuinely re-read at each
trigger: when the timer fires with the current settings disabled the
agent transitions to Stopped and no check runs, and when they are
enabled the check runs with the scheduler state untouched.  The timer
period, however, is fixed by `startAgent` from the settings current at
start time (`(checkIntervalMinutes || 10) * 60 * 1000`) and a tick
never re-reads it: it changes only through a stop/start cycle. -/
theorem scheduler_settings_at_trigger_C9 (cur : SettingsRec)
    (st s0 : SchedulerState) :
    (cur.isActive = false → timerTick cur st = (⟨false, none⟩, false)) ∧
    (cur.isActive = true → timerTick cur st = (st, true)) ∧
    ((timerTick cur st).1.timerPeriodMs =
      if cur.isActive then st.timerPeriodMs else none) ∧
    (s0.running = false → cur.isActive = true →
      (startAgent cur s0).timerPeriodMs =
        some ((if cur.checkIntervalMinutes = 0 then 10
               else cur.checkIntervalMinutes) * 60 * 1000)) := by
  refine ⟨?_, ?_, ?_, ?_⟩
  · intro h; simp [timerTick, h, stopAgent]
  · intro h; simp [timerTick, h]
  · cases h : cur.isActive <;> simp [timerTick, h, stopAgent]
  · intro h0 h1; simp [startAgent, h0, h1]

theorem scheduler_settings_at_trigger_C9_witness :
    timerTick ⟨5, false⟩ ⟨true, some 600000⟩ = (⟨false, none⟩, false) ∧
    timerTick ⟨5, true⟩ ⟨true, some 600000⟩ = (⟨true, some 600000⟩, true) ∧
    (startAgent ⟨5, true⟩ ⟨false, none⟩).timerPeriodMs = some (5 * 60 * 1000) := by
  have h1 := scheduler_settings_at_trigger_C9 ⟨5, false⟩ ⟨true, some 600000⟩ ⟨false, none⟩
  have h2 := scheduler_settings_at_trigger_C9 ⟨5, true⟩ ⟨true, some 600000⟩ ⟨false, none⟩
  exact ⟨h1.1 rfl, h2.2.1 rfl, h2.2.2.2 rfl rfl⟩

/-- The environment a single run interacts with: the Playwright fetch
(whose failure the scraper catches), the `getActiveEmailRecipients`
database read (which can reject inside `runCheck`'s try), and the
notification transport. -/
structure RunEnv where
  fetchResult : Except String (List Candidate)
  recipientsResult : Except String (List String)
  transportOk : Bool
  sendOk : String → Bool

/-- The persistent state a run touches: the `studies` table, the fresh
primary-key counter, and the `check_logs` table (most recent entry
first). -/
structure RunState where
  store : List Study
  nextId : Nat
  logs : List String
  deriving DecidableEq

/-- `addLog`: append a log entry. -/
def addLogS (st : RunState) (m : String) : RunState :=
  { st with logs := m :: st.logs }

/-- `scrapeRespondentStudies` at the run boundary: a fetch or
evaluation error is caught inside the scraper, which then returns the
empty candidate list instead of throwing (`server/scraper.ts` lines
143-149). -/
def scrapeStudies (env : RunEnv) : List Candidate :=
  match env.fetchResult with
  | .ok cs => cs
  | .error _ => []

/-- The body of `runCheck`'s try block (`server/agent.ts` lines 22-82):
scrape, reconcile, then notify and mark.  The returned `Except` is the
value the try block produces — `.error` when a step throws (here: the
recipients read) — paired with the state as of that moment, since
earlier inserts are not rolled back. -/
def runCheckBody (env : RunEnv) (st : RunState) :
    Except String (List Study) × RunState :=
  let scraped := scrapeStudies env
  if scraped.isEmpty then
    (.ok [], addLogS st "No studies found on Respondent.io page")
  else
    let st := addLogS st
      ("Found " ++ toString scraped.length ++ " potential studies")
    let r := reconcile st.store st.nextId scraped
    let st : RunState :=
      { store := r.store, nextId := r.nextId,
        logs := (r.created.map (fun s => "New study: " ++ s.title)).reverse
          ++ st.logs }
    if r.created.isEmpty then
      (.ok [], addLogS st "All studies already known - no new matches")
    else
      match env.recipientsResult with
      | .error e => (.error e, st)
      | .ok recips =>
        if recips.isEmpty then
          (.ok r.created, addLogS st "No active email recipients configured")
        else
          let st := addLogS st
            ("Sending notifications to " ++ toString recips.length
              ++ " recipient(s)...")
          if (sendStudyNotificationRun env.transportOk env.sendOk recips).1 then
            (.ok r.created,
              { addLogS st "Email notifications sent successfully" with
                  store := markAllNotified r.store
                    (r.created.map (fun s => s.id)) })
          else
            (.ok r.created, addLogS st "Failed to send email notifications")

/-- `runCheck` with its run-boundary catch (`server/agent.ts` lines
83-87): any error thrown inside the body is caught, logged with its
message, and the run returns the empty list; effects already performed
stay in place. -/
def runCheck (env : RunEnv) (st : RunState) : List Study × RunState :=
  let st := addLogS st "Initiating scheduled check..."
  match runCheckBody env st with
  | (.ok l, st') => (l, st')
  | (.error e, st') => ([], addLogS st' ("Check failed: " ++ e))

/-- C8.  Run-level errors are contained: on a fetch failure the scraper
returns the empty candidate list instead of throwing, and `runCheck`
then returns the empty list with the store untouched (in particular no
prune runs — `runCheck` never deletes rows); and whenever the body of
the run throws, the run-boundary catch makes `runCheck` return the
empty list, keep the state reached so far, and log the failure with its
cause — no exception ever escapes to the scheduler's timer. -/
theorem runCheck_errors_contained_C8 (env : RunEnv) (st : RunState) :
    (∀ msg, env.fetchResult = .error msg →
      scrapeStudies env = [] ∧
      (runCheck env st).1 = [] ∧
      (runCheck env st).2.store = st.store) ∧
    (∀ e, (runCheckBody env (addLogS st "Initiating scheduled check...")).1
        = .error e →
      runCheck env st =
        ([], addLogS
          (runCheckBody env (addLogS st "Initiating scheduled check...")).2
          ("Check failed: " ++ e))) := by
  constructor
  · intro msg hf
    have hs : scrapeStudies env = [] := by simp [scrapeStudies, hf]
    refine ⟨hs, ?_, ?_⟩ <;>
      simp [runCheck, runCheckBody, hs, addLogS]
  · intro e he
    simp only [runCheck]
    cases hbody : runCheckBody env (addLogS st "Initiating scheduled check...") with
    | mk v st' =>
      rw [hbody] at he
      simp only at he
      subst he
      rfl

/-- A run environment whose fetch fails. -/
def demoEnvFetchFail : RunEnv :=
  ⟨.error "net::ERR_TIMED_OUT", .ok [], true, fun _ => true⟩

/-- A run environment that scrapes one candidate and then fails reading
the recipients. -/
def demoEnvDbFail : RunEnv :=
  ⟨.ok [⟨"a", "t", 5, "5 min", "Remote", none, none, none, none⟩],
   .error "db down", true, fun _ => true⟩

def demoRunState : RunState := ⟨[], 0, []⟩

theorem runCheck_errors_contained_C8_witness :
    ((runCheck demoEnvFetchFail demoRunState).1 = [] ∧
      (runCheck demoEnvFetchFail demoRunState).2.store = demoRunState.store) ∧
    (runCheck demoEnvDbFail demoRunState).1 = [] := by
  have h1 := (runCheck_errors_contained_C8 demoEnvFetchFail demoRunState).1
    "net::ERR_TIMED_OUT" rfl
  have h2 := (runCheck_errors_contained_C8 demoEnvDbFail demoRunState).2
    "db down" rfl
  exact ⟨⟨h1.2.1, h1.2.2⟩, by rw [h2]⟩

/-- C10.  A run is not atomic with respect to its return value: when
the recipients read throws after a genuinely new candidate has already
been inserted, `runCheck` catches the error and returns the empty list,
while the record inserted earlier in the same run stays in the store
with `notified = false` — the insert is not rolled back and the new
record is not reported to the caller. -/
theorem run_not_atomic_C10 (st : RunState) (c : Candidate) (env : RunEnv)
    (e : String)
    (hf : env.fetchResult = .ok [c])
    (habs : getStudyByExternalId st.store c.externalId = none)
    (hr : env.recipientsResult = .error e) :
    (runCheck env st).1 = [] ∧
    (runCheck env st).2.store = st.store ++ [toStudy c st.nextId] ∧
    (toStudy c st.nextId).notified = false := by
  have hs : scrapeStudies env = [c] := by simp [scrapeStudies, hf]
  have hrec : reconcile st.store st.nextId [c] =
      ⟨st.store ++ [toStudy c st.nextId], st.nextId + 1, [toStudy c st.nextId]⟩ := by
    simp [reconcile, habs, createStudy]
  refine ⟨?_, ?_, rfl⟩ <;>
    simp [runCheck, runCheckBody, hs, addLogS, hrec, hr]

theorem run_not_atomic_C10_witness :
    (runCheck demoEnvDbFail demoRunState).1 = [] ∧
    (runCheck demoEnvDbFail demoRunState).2.store =
      demoRunState.store ++
        [toStudy ⟨"a", "t", 5, "5 min", "Remote", none, none, none, none⟩
          demoRunState.nextId] :=
  have h := run_not_atomic_C10 demoRunState
    ⟨"a", "t", 5, "5 min", "Remote", none, none, none, none⟩
    demoEnvDbFail "db down" rfl (by decide) rfl
  ⟨h.1, h.2.1⟩

end RespondentMonitor
